import Mathlib

/-!
Verification of the session-orchestration and escalation subsystem of the
urja-smart repository (socket-server stores and handlers, plus the voicebot
client call state machine).

The JavaScript source is embedded shallowly:

* JS `Map` objects (`activeSessions`, `sessionClients`, `escalatedCalls`)
  become insertion-ordered association lists with JS `Map.set`/`delete`
  semantics (`mapSet` replaces in place, `mapDelete` filters).
* JS arrays that are shared by reference between a session record and an
  escalation record (the `chatHistory` array handed to `createEscalation`)
  live in an explicit heap (`List (List Msg)`); session and escalation
  records store the array address.  Array mutation (`push`) is a heap
  update, so aliasing behaves exactly as in the source.
* Nondeterministic inputs (`Date.now()`, `new Date().toISOString()`,
  `uuidv4()`, the generated escalation id) are passed as parameters.
* JS numbers used for confidence scores are modelled as exact rationals;
  the truthiness coercions of the source (`x || y`, `x ?? y`) are modelled
  explicitly, including the fact that the number 0 and the empty string
  are falsy.
-/

/-- One conversation message object, as stored in a session `chatHistory`
array or an escalation `history` array.  Fields that the source may leave
`undefined`/`null` are `Option`. -/
structure Msg where
  sender : String
  text : String
  timestamp : Option String
  confidence : Option ℚ
  tool : Option String
deriving DecidableEq

/-- One audio chunk as pushed by `handleAudioData` in
`socket-server/handlers/audioHandler.js`: `{ data: audioData, index:
chunkIndex, timestamp: Date.now() }`. -/
structure Chunk where
  data : String
  index : Int
  timestamp : Int
deriving DecidableEq

/-- A client WebSocket connection: an identity plus its `readyState`
(1 = OPEN). -/
structure Client where
  cid : Nat
  readyState : Nat
deriving DecidableEq

/-- Model of a JS truthiness default `x || d` for an optional string:
`undefined`, `null` and the empty string are falsy. -/
def jsOrDefaultStr (x : Option String) (d : String) : String :=
  match x with
  | some s => if s = "" then d else s
  | none => d

/-- Model of `x || null` for an optional string: the empty string collapses
to `null`. -/
def jsStrOrNull (x : Option String) : Option String :=
  match x with
  | some s => if s = "" then none else some s
  | none => none

/-- Model of `x || null` for an optional number: the legitimate score 0 is
falsy in JS and collapses to `null`. -/
def jsNumOrNull (x : Option ℚ) : Option ℚ :=
  match x with
  | some c => if c = 0 then none else some c
  | none => none

/-- Lookup in a JS `Map` modelled as an association list. -/
def mapGet {α : Type} (m : List (String × α)) (k : String) : Option α :=
  (m.find? (fun p => p.1 = k)).map Prod.snd

/-- Key-membership test, `Map.has`. -/
def mapHas {α : Type} (m : List (String × α)) (k : String) : Bool :=
  m.any (fun p => p.1 = k)

/-- JS `Map.set`: replace the value in place when the key exists (keeping
insertion order), otherwise append. -/
def mapSet {α : Type} (m : List (String × α)) (k : String) (v : α) : List (String × α) :=
  if mapHas m k then m.map (fun p => if p.1 = k then (k, v) else p) else m ++ [(k, v)]

/-- JS `Map.delete`: drop every entry with the key. -/
def mapDelete {α : Type} (m : List (String × α)) (k : String) : List (String × α) :=
  m.filter (fun p => !(p.1 = k : Bool))

/-- Heap of JS arrays of messages, addressed by allocation index. -/
abbrev Heap := List (List Msg)

/-- Allocate a fresh array, returning its address. -/
def heapAlloc (h : Heap) (arr : List Msg) : Nat × Heap :=
  (h.length, h ++ [arr])

/-- Read the array at an address (a dangling address reads as empty; the
operations below only ever produce valid addresses). -/
def heapGet (h : Heap) (a : Nat) : List Msg :=
  h.getD a []

/-- Overwrite the array at an address. -/
def heapSet (h : Heap) (a : Nat) (arr : List Msg) : Heap :=
  h.set a arr

/-- A session record from `socket-server/store/sessionStore.js`
(`createSession`).  The `chatHistory` array is held by reference, so the
record stores its heap address. -/
structure Session where
  id : String
  type : String
  startTime : String
  audioChunks : List Chunk
  historyAddr : Nat
deriving DecidableEq

/-- Derived transcript statistics stored on an escalation record
(`stats` in `createEscalation`). -/
structure EscStats where
  totalTurns : Nat
  userMessages : Nat
  botMessages : Nat
  lowConfidenceCount : Nat
  avgConfidence : Option ℚ
deriving DecidableEq

/-- An escalation record from `socket-server/store/escalationStore.js`
(`createEscalation`).  The `history` array is held by reference. -/
structure Escalation where
  id : String
  sessionId : String
  type : String
  reason : String
  historyAddr : Nat
  metrics : List (String × ℚ)
  avgConfidence : Option ℚ
  summary : String
  status : String
  createdAt : String
  resolvedAt : Option String
  resolvedBy : Option String
  customerPhone : Option String
  customerName : Option String
  stats : EscStats
deriving DecidableEq

/-- Association-list form of the `escalatedCalls` map. -/
abbrev EscMap := List (String × Escalation)

/-- The whole in-memory server state: the array heap, `activeSessions`,
`sessionClients` and `escalatedCalls`. -/
structure ServerState where
  heap : Heap
  sessions : List (String × Session)
  clients : List (String × Client)
  escalations : EscMap
deriving DecidableEq

/-- The empty server state at process start. -/
def emptyServerState : ServerState :=
  { heap := [], sessions := [], clients := [], escalations := [] }

/-- Case-insensitive substring test, modelling a JS regex
`/alt1|alt2|.../i` test for one literal alternative.  Lower-casing is done
per character, as `String.toLowerCase` does on ASCII. -/
def strContainsCI (hay pat : String) : Bool :=
  let h := hay.data.map Char.toLower
  let p := pat.data.map Char.toLower
  (List.range (h.length + 1)).any (fun i => p.isPrefixOf (h.drop i))

/-- The five keyword patterns of `generateQuickSummary`, each a list of
regex alternatives with its topic label. -/
def keywordPatterns : List (List String × String) :=
  [ (["invoice", "bill", "payment", "paisa"], "Invoice/Payment"),
    (["battery", "swap", "charge"], "Battery/Swap"),
    (["station", "location", "nearest"], "Station Location"),
    (["problem", "issue", "help", "complaint"], "Support Issue"),
    (["penalty", "fine", "late"], "Penalty Inquiry") ]

/-- Translation of `generateQuickSummary` in
`socket-server/store/escalationStore.js`. -/
def generateQuickSummary (history : List Msg) : String :=
  if history.length = 0 then
    "No conversation history available."
  else
    let userMessages := (history.filter (fun m => m.sender == "user")).map (fun m => m.text)
    let lastUserMessage := (userMessages.getLast?).getD ""
    let allText := String.intercalate " " userMessages
    let keywords :=
      (keywordPatterns.filter (fun pt => pt.1.any (fun p => strContainsCI allText p))).map
        (fun pt => pt.2)
    let topicsStr := if keywords.length > 0 then String.intercalate ", " keywords else "General inquiry"
    "Customer discussed: " ++ topicsStr ++ ". Last message: \"" ++ lastUserMessage.take 100 ++
      (if lastUserMessage.length > 100 then "..." else "") ++ "\""

/-- Parameters of `createEscalation`.  `historyAddr` is the reference to
the caller-supplied history array (`none` models an absent argument). -/
structure EscParams where
  sessionId : String
  type : String
  reason : String
  historyAddr : Option Nat
  metrics : Option (List (String × ℚ))
  avgConfidence : Option ℚ
  summary : Option String
  customerPhone : Option String
  customerName : Option String

/-- Translation of `createEscalation` in
`socket-server/store/escalationStore.js`.  The generated id and
`new Date().toISOString()` are passed in.  Note that `history || []`
keeps the caller-supplied array by reference (an empty array is truthy),
that `avgConfidence ?? calculated` keeps an explicit 0, and that
`summary || generateQuickSummary(...)` treats the empty string as
absent. -/
def createEscalation (heap : Heap) (escalatedCalls : EscMap) (escalationId createdAt : String)
    (p : EscParams) : Escalation × Heap × EscMap :=
  let history := match p.historyAddr with | some a => heapGet heap a | none => []
  let userMessages := history.filter (fun m => m.sender == "user")
  let confidenceScores := (userMessages.map (fun m => m.confidence)).filterMap (fun c => c)
  let calculatedAvgConfidence : Option ℚ :=
    if confidenceScores.length > 0 then
      some (confidenceScores.foldl (fun a b => a + b) 0 / (confidenceScores.length : ℚ))
    else none
  let allocated := match p.historyAddr with
    | some a => (a, heap)
    | none => heapAlloc heap []
  let escalation : Escalation :=
    { id := escalationId,
      sessionId := p.sessionId,
      type := p.type,
      reason := p.reason,
      historyAddr := allocated.1,
      metrics := p.metrics.getD [],
      avgConfidence := match p.avgConfidence with
        | some v => some v
        | none => calculatedAvgConfidence,
      summary := match p.summary with
        | some s => if s = "" then generateQuickSummary history else s
        | none => generateQuickSummary history,
      status := "pending",
      createdAt := createdAt,
      resolvedAt := none,
      resolvedBy := none,
      customerPhone := jsStrOrNull p.customerPhone,
      customerName := jsStrOrNull p.customerName,
      stats :=
        { totalTurns := history.length,
          userMessages := userMessages.length,
          botMessages := (history.filter (fun m => m.sender == "bot")).length,
          lowConfidenceCount := (confidenceScores.filter (fun c => decide (c < 7 / 10))).length,
          avgConfidence := calculatedAvgConfidence } }
  (escalation, allocated.2, mapSet escalatedCalls escalationId escalation)

/-- Translation of `getEscalation`. -/
def getEscalation (escalatedCalls : EscMap) (id : String) : Option Escalation :=
  mapGet escalatedCalls id

/-- Translation of `getPendingEscalations`: every escalation whose status
is not resolved, in insertion order. -/
def getPendingEscalations (escalatedCalls : EscMap) : List Escalation :=
  (escalatedCalls.map Prod.snd).filter (fun e => !(e.status == "resolved"))

/-- Translation of `updateEscalationStatus`: unconditionally assigns the
requested status; stamps `resolvedAt`/`resolvedBy` only when the new
status is resolved.  Returns the updated record, or none when the id is
unknown. -/
def updateEscalationStatus (escalatedCalls : EscMap) (id status : String)
    (resolvedBy : Option String) (now : String) : Option Escalation × EscMap :=
  match mapGet escalatedCalls id with
  | some escalation =>
    let updated :=
      { escalation with
        status := status,
        resolvedAt := if status = "resolved" then some now else escalation.resolvedAt,
        resolvedBy := if status = "resolved" then resolvedBy else escalation.resolvedBy }
    (some updated, mapSet escalatedCalls id updated)
  | none => (none, escalatedCalls)

/-- Translation of `deleteEscalation`. -/
def deleteEscalation (escalatedCalls : EscMap) (id : String) : EscMap :=
  mapDelete escalatedCalls id

/-- Translation of `getEscalationBySessionId`: the first escalation (in
insertion order) whose `sessionId` matches, regardless of status. -/
def getEscalationBySessionId (escalatedCalls : EscMap) (sessionId : String) : Option Escalation :=
  (escalatedCalls.map Prod.snd).find? (fun e => e.sessionId == sessionId)

/-- Translation of `createSession` in
`socket-server/store/sessionStore.js`: builds a fresh session with an
empty chunk buffer and a freshly allocated empty `chatHistory` array and
stores it with `Map.set` (no duplicate check: an existing entry for the
id is replaced). -/
def createSession (st : ServerState) (id sessionType : String) (ws : Client) (now : String) :
    Session × ServerState :=
  let allocated := heapAlloc st.heap []
  let session : Session :=
    { id := id, type := sessionType, startTime := now, audioChunks := [],
      historyAddr := allocated.1 }
  (session,
   { st with
     heap := allocated.2,
     sessions := mapSet st.sessions id session,
     clients := mapSet st.clients id ws })

/-- Translation of `getSession`. -/
def getSession (st : ServerState) (id : String) : Option Session :=
  mapGet st.sessions id

/-- Translation of `hasSession`. -/
def hasSession (st : ServerState) (id : String) : Bool :=
  mapHas st.sessions id

/-- Translation of `deleteSession`: removes the session and its client
mapping; `Map.delete` raises no error when the key is absent. -/
def deleteSession (st : ServerState) (id : String) : ServerState :=
  { st with sessions := mapDelete st.sessions id, clients := mapDelete st.clients id }

/-- Translation of `getAllSessions`. -/
def getAllSessions (st : ServerState) : List Session :=
  st.sessions.map Prod.snd

/-- Translation of `getSessionClient`. -/
def getSessionClient (st : ServerState) (id : String) : Option Client :=
  mapGet st.clients id

/-- Translation of `addAudioChunk`: push onto the pending chunk buffer in
arrival order; silently does nothing when the session is absent. -/
def addAudioChunk (st : ServerState) (sessionId : String) (chunk : Chunk) : ServerState :=
  match mapGet st.sessions sessionId with
  | some session =>
    { st with
      sessions := mapSet st.sessions sessionId
        { session with audioChunks := session.audioChunks ++ [chunk] } }
  | none => st

/-- Translation of `getAndClearAudioChunks`: returns a copy of the buffer
as it stands (arrival order) and resets the buffer to a new empty
array. -/
def getAndClearAudioChunks (st : ServerState) (sessionId : String) :
    List Chunk × ServerState :=
  match mapGet st.sessions sessionId with
  | some session =>
    (session.audioChunks,
     { st with
       sessions := mapSet st.sessions sessionId { session with audioChunks := [] } })
  | none => ([], st)

/-- Normalisation performed by `addChatMessage` on the stored message:
`timestamp: message.timestamp || now`, `confidence: message.confidence ||
null` (so 0 collapses to null), `tool: message.tool || null`. -/
def normalizeChatMessage (now : String) (message : Msg) : Msg :=
  { message with
    timestamp := some (jsOrDefaultStr message.timestamp now),
    confidence := jsNumOrNull message.confidence,
    tool := jsStrOrNull message.tool }

/-- Translation of `addChatMessage`: pushes the normalised message onto
the session chat-history array in the heap; silently does nothing when
the session is absent. -/
def addChatMessage (st : ServerState) (sessionId : String) (message : Msg) (now : String) :
    ServerState :=
  match mapGet st.sessions sessionId with
  | some session =>
    { st with
      heap := heapSet st.heap session.historyAddr
        (heapGet st.heap session.historyAddr ++ [normalizeChatMessage now message]) }
  | none => st

/-- Translation of `getSessionHistory`: reads the session chat-history
array, or returns a fresh empty array when the session is absent. -/
def getSessionHistory (st : ServerState) (sessionId : String) : List Msg :=
  match mapGet st.sessions sessionId with
  | some session => heapGet st.heap session.historyAddr
  | none => []

/-- Translation of `addMessageToEscalation`: pushes the message with its
timestamp overwritten onto the escalation history array. -/
def addMessageToEscalation (st : ServerState) (escalationId : String) (message : Msg)
    (now : String) : ServerState :=
  match mapGet st.escalations escalationId with
  | some escalation =>
    { st with
      heap := heapSet st.heap escalation.historyAddr
        (heapGet st.heap escalation.historyAddr ++ [{ message with timestamp := some now }]) }
  | none => st

/-- A typed wire event emitted by the socket server. -/
inductive WireEvent where
  | errorEv (message : String)
  | sessionStarted (session : Session)
  | sessionEnded (id : String)
  | escalationExists (escalationId : String)
  | escalationTriggered (escalationId : String) (message : String)
  | escalationNew (escalation : Escalation)
  | escalationUpdated (escalation : Escalation)
  | escalationResolvedAll (escalationId : String) (resolvedBy : String)
  | escalationResolvedClient (escalationId : String) (message : String)
deriving DecidableEq

/-- One outbound delivery action of `broadcaster.js`: either a broadcast
to every observer or a send to one addressed client. -/
inductive OutAction where
  | sendTo (client : Client) (ev : WireEvent)
  | broadcastAll (ev : WireEvent)
deriving DecidableEq

/-- The fields of an inbound `ESCALATE` message that `handleEscalation`
destructures. -/
structure EscalateMsg where
  reason : Option String
  metrics : Option (List (String × ℚ))
  avgConfidence : Option ℚ
  summary : Option String
  fullHistory : Option (List Msg)
  customerPhone : Option String
  customerName : Option String

/-- Translation of `handleSessionStart` in the session handler: no
duplicate check is made; `message.id || uuidv4()` picks the supplied id
unless it is absent or empty.  Returns the session id, the new state and
the emitted actions. -/
def handleSessionStart (st : ServerState) (msgId : Option String) (sessionType : String)
    (ws : Client) (freshUuid now : String) : String × ServerState × List OutAction :=
  let sessionId := jsOrDefaultStr msgId freshUuid
  let created := createSession st sessionId sessionType ws now
  (sessionId, created.2, [OutAction.broadcastAll (WireEvent.sessionStarted created.1)])

/-- Translation of `handleSessionEnd`: deletes and broadcasts only when
the session exists; otherwise a silent no-op. -/
def handleSessionEnd (st : ServerState) (id : String) : ServerState × List OutAction :=
  if hasSession st id then
    (deleteSession st id, [OutAction.broadcastAll (WireEvent.sessionEnded id)])
  else
    (st, [])

/-- Translation of `cleanupSession` (disconnect path): same guard and
effect as `handleSessionEnd`, additionally requiring a non-empty id. -/
def cleanupSession (st : ServerState) (sessionId : String) : ServerState × List OutAction :=
  if sessionId ≠ "" ∧ hasSession st sessionId then
    (deleteSession st sessionId, [OutAction.broadcastAll (WireEvent.sessionEnded sessionId)])
  else
    (st, [])

/-- Translation of `handleEscalation` in
`socket-server/handlers/escalationHandler.js`.  The connection-scoped
session id may be null; the generated escalation id and the timestamp are
passed in.  Points to note, all from the source: the duplicate check uses
`getEscalationBySessionId`, which matches an escalation of any status;
`fullHistory || getSessionHistory(sessionId)` uses the session store
array by reference when `fullHistory` is absent (an empty caller array is
truthy and is used as supplied); a non-empty `fullHistory` is also
mirrored into the session store before the escalation is created. -/
def handleEscalation (st : ServerState) (message : EscalateMsg) (ws : Client)
    (sessionId : Option String) (freshEscId now : String) : ServerState × List OutAction :=
  match sessionId with
  | none => (st, [OutAction.sendTo ws (WireEvent.errorEv "No active session")])
  | some sid =>
    if sid = "" ∨ hasSession st sid = false then
      (st, [OutAction.sendTo ws (WireEvent.errorEv "No active session")])
    else
      match getEscalationBySessionId st.escalations sid with
      | some existingEscalation =>
        (st, [OutAction.sendTo ws (WireEvent.escalationExists existingEscalation.id)])
      | none =>
        match getSession st sid with
        | none => (st, [])
        | some session =>
          let histAlloc :=
            match message.fullHistory with
            | some arr =>
              let allocated := heapAlloc st.heap arr
              (allocated.1, { st with heap := allocated.2 })
            | none => (session.historyAddr, st)
          let st2 :=
            match message.fullHistory with
            | some arr =>
              if arr.length > 0 then
                arr.foldl (fun s m => addChatMessage s sid m now) histAlloc.2
              else histAlloc.2
            | none => histAlloc.2
          let created := createEscalation st2.heap st2.escalations freshEscId now
            { sessionId := sid,
              type := session.type,
              reason := jsOrDefaultStr message.reason "User requested agent assistance",
              historyAddr := some histAlloc.1,
              metrics := some (message.metrics.getD []),
              avgConfidence := message.avgConfidence,
              summary := message.summary,
              customerPhone := message.customerPhone,
              customerName := message.customerName }
          ({ st2 with heap := created.2.1, escalations := created.2.2 },
           [OutAction.sendTo ws
              (WireEvent.escalationTriggered created.1.id "Connecting you to an agent..."),
            OutAction.broadcastAll (WireEvent.escalationNew created.1)])

/-- Translation of `handleEscalationResolve`: sets status resolved with
`resolvedBy || "admin"`, broadcasts, and notifies the originating session
client if its transport is open. -/
def handleEscalationResolve (st : ServerState) (escalationId : String)
    (resolvedBy : Option String) (ws : Client) (now : String) : ServerState × List OutAction :=
  let rb := jsOrDefaultStr resolvedBy "admin"
  let updated := updateEscalationStatus st.escalations escalationId "resolved" (some rb) now
  match updated.1 with
  | none => (st, [OutAction.sendTo ws (WireEvent.errorEv "Escalation not found")])
  | some escalation =>
    let st2 := { st with escalations := updated.2 }
    let clientActions :=
      match getSessionClient st2 escalation.sessionId with
      | some sessionClient =>
        if sessionClient.readyState = 1 then
          [OutAction.sendTo sessionClient
            (WireEvent.escalationResolvedClient escalationId "An agent has resolved your request.")]
        else []
      | none => []
    (st2, OutAction.broadcastAll (WireEvent.escalationResolvedAll escalationId rb) :: clientActions)

/-- Translation of `handleEscalationTake`: sets status in-progress via
`updateEscalationStatus` with no resolver, then broadcasts the updated
record. -/
def handleEscalationTake (st : ServerState) (escalationId : String) (ws : Client)
    (now : String) : ServerState × List OutAction :=
  let updated := updateEscalationStatus st.escalations escalationId "in-progress" none now
  match updated.1 with
  | none => (st, [OutAction.sendTo ws (WireEvent.errorEv "Escalation not found")])
  | some escalation =>
    ({ st with escalations := updated.2 },
     [OutAction.broadcastAll (WireEvent.escalationUpdated escalation)])

/-- The comparison the drain consumer sorts by: ascending chunk index
(`(a, b) => a.index - b.index`). -/
def chunkLe (a b : Chunk) : Prop := a.index ≤ b.index

instance : DecidableRel chunkLe := fun a b => Int.decLe a.index b.index

instance : IsTotal Chunk chunkLe := ⟨fun a b => Int.le_total a.index b.index⟩

instance : IsTrans Chunk chunkLe := ⟨fun _ _ _ => Int.le_trans⟩

/-- Model of `Array.prototype.sort` with the ascending index comparator: a
stable sort by chunk index (the ECMAScript sort is required to be
stable). -/
def jsSortByIndex (audioChunks : List Chunk) : List Chunk :=
  List.insertionSort chunkLe audioChunks

/-- The `combinedAudio` value computed by `forwardAudioToPython` in
`socket-server/services/pythonBackend.js`: chunks sorted by index, mapped
to their data, joined. -/
def forwardAudioCombined (audioChunks : List Chunk) : String :=
  String.join ((jsSortByIndex audioChunks).map Chunk.data)

/-- State-change signal emitted by `handleDataChannelMessage` in
`voicebot/services/voiceSocket.js` for a data-channel `log` message:
pause detected drives processing, response starting drives speaking,
started talking drives listening; other log payloads emit no signal. -/
def handleDataChannelLog (data : String) : Option String :=
  if data = "pause_detected" then some "processing"
  else if data = "response_starting" then some "speaking"
  else if data = "started_talking" then some "listening"
  else none

/-- The `onStateChange` subscriber in the voicebot page
(`part_012`): maps an incoming signal to the next `botState`; a
disconnected signal leaves the bot state alone, unknown signals are
ignored. -/
def onStateChange (botState : String) (state : String) : String :=
  if state = "connected" then "listening"
  else if state = "disconnected" then botState
  else if state = "listening" then "listening"
  else if state = "processing" then "processing"
  else if state = "speaking" then "speaking"
  else botState

/-- The bot state after the client processes one data-channel `log`
message: the signal from `handleDataChannelMessage` fed through the page
`onStateChange` subscriber. -/
def botStateAfterLog (botState : String) (data : String) : String :=
  match handleDataChannelLog data with
  | some signal => onStateChange botState signal
  | none => botState

/-- Append a batch of turns to one session, each with its own timestamp:
`pairs` is processed in order by `addChatMessage`. -/
def appendTurns (st : ServerState) (sessionId : String) (pairs : List (Msg × String)) :
    ServerState :=
  pairs.foldl (fun s p => addChatMessage s sessionId p.1 p.2) st

/-- Modelled from the spec wording for the escalation statistics: the
confidence values of the turns whose sender is user and whose confidence
is non-null, in order.  Used to compare the computation in
`createEscalation` against the specified one. -/
def specUserConfidences (history : List Msg) : List ℚ :=
  history.filterMap (fun m => if m.sender = "user" then m.confidence else none)

/-- Reading `escalation.history` through the registry: the array currently
referenced by the escalation record with the given id. -/
def escalationHistory (st : ServerState) (escalationId : String) : List Msg :=
  match mapGet st.escalations escalationId with
  | some escalation => heapGet st.heap escalation.historyAddr
  | none => []

/-! Concrete fixtures used by the counterexamples and witnesses below.
They are reachable states, built only through the handler functions. -/

/-- A connected client with an open transport. -/
def cexClient : Client := { cid := 1, readyState := 1 }

/-- A plain user message with no optional fields. -/
def cexMsgHello : Msg :=
  { sender := "user", text := "hello", timestamp := none, confidence := none, tool := none }

/-- An `ESCALATE` message with every optional field absent. -/
def c1EscMsg : EscalateMsg :=
  { reason := none, metrics := none, avgConfidence := none, summary := none,
    fullHistory := none, customerPhone := none, customerName := none }

/-- State after `SESSION_START` for id s1 (chat). -/
def c1State1 : ServerState :=
  (handleSessionStart emptyServerState (some "s1") "chat" cexClient "u1" "t1").2.1

/-- The session record stored for s1 in `c1State1`. -/
def c1Session : Session :=
  { id := "s1", type := "chat", startTime := "t1", audioChunks := [], historyAddr := 0 }

/-- State after a first `ESCALATE` for s1 succeeded (escalation esc1). -/
def c1State2 : ServerState :=
  (handleEscalation c1State1 c1EscMsg cexClient (some "s1") "esc1" "t2").1

/-- The pending escalation record stored as esc1 in `c1State2`. -/
def c1EscPending : Escalation :=
  { id := "esc1", sessionId := "s1", type := "chat",
    reason := "User requested agent assistance", historyAddr := 0, metrics := [],
    avgConfidence := none, summary := "No conversation history available.",
    status := "pending", createdAt := "t2", resolvedAt := none, resolvedBy := none,
    customerPhone := none, customerName := none,
    stats := { totalTurns := 0, userMessages := 0, botMessages := 0,
               lowConfidenceCount := 0, avgConfidence := none } }

/-- State after an admin resolved esc1. -/
def c1State3 : ServerState :=
  (handleEscalationResolve c1State2 "esc1" (some "alice") cexClient "t3").1

/-- The resolved escalation record stored as esc1 in `c1State3`. -/
def c5EscResolved : Escalation :=
  { c1EscPending with status := "resolved", resolvedAt := some "t3", resolvedBy := some "alice" }

/-- State after an `ESCALATION_TAKE` of the already resolved esc1. -/
def c5State : ServerState :=
  (handleEscalationTake c1State3 "esc1" cexClient "t4").1

/-- State after `SESSION_START` s1 and one appended user turn. -/
def c2State2 : ServerState :=
  addChatMessage (createSession emptyServerState "s1" "chat" cexClient "t1").2 "s1"
    cexMsgHello "t2"

/-- State after a second `createSession` for the already-active id s1. -/
def c2State3 : ServerState :=
  (createSession c2State2 "s1" "chat" cexClient "t3").2

/-- State with one turn appended to s1 and then an `ESCALATE` with no
caller-supplied history, so the escalation aliases the session array. -/
def c3State3 : ServerState :=
  (handleEscalation c2State2 c1EscMsg cexClient (some "s1") "esc1" "t3").1

/-- State after one further turn is appended to s1 after the escalation. -/
def c3State4 : ServerState :=
  addChatMessage c3State3 "s1"
    { sender := "bot", text := "hi", timestamp := none, confidence := none, tool := none } "t4"

/-- Audio chunks tagged with sequence indices 0, 2 and 1, in that arrival
order. -/
def chunkA : Chunk := { data := "a", index := 0, timestamp := 100 }

/-- Chunk with index 2, arriving second. -/
def chunkC : Chunk := { data := "c", index := 2, timestamp := 101 }

/-- Chunk with index 1, arriving third. -/
def chunkB : Chunk := { data := "b", index := 1, timestamp := 102 }

/-- Voice session s1 with the three chunks buffered in arrival order
0, 2, 1. -/
def c4State : ServerState :=
  addAudioChunk
    (addAudioChunk
      (addAudioChunk (createSession emptyServerState "s1" "voice" cexClient "t1").2
        "s1" chunkA)
      "s1" chunkC)
    "s1" chunkB

/-- The session record stored for s1 in `c4State`. -/
def c4Session : Session :=
  { id := "s1", type := "voice", startTime := "t1",
    audioChunks := [chunkA, chunkC, chunkB], historyAddr := 0 }

/-- Three turns with distinct timestamps for the round-trip witness. -/
def c7Pairs : List (Msg × String) :=
  [ ({ sender := "user", text := "one", timestamp := none, confidence := none, tool := none }, "x1"),
    ({ sender := "bot", text := "two", timestamp := none, confidence := none, tool := none }, "x2"),
    ({ sender := "user", text := "three", timestamp := none, confidence := none, tool := none }, "x3") ]

/-- The four-user-turn history of the escalation statistics example, with
confidences 0.9, 0.5, 0.3 and null. -/
def c6Hist : List Msg :=
  [ { sender := "user", text := "a", timestamp := none, confidence := some (9 / 10), tool := none },
    { sender := "user", text := "b", timestamp := none, confidence := some (5 / 10), tool := none },
    { sender := "user", text := "c", timestamp := none, confidence := some (3 / 10), tool := none },
    { sender := "user", text := "d", timestamp := none, confidence := none, tool := none } ]

/-- A heap holding only the example history at address 0. -/
def c6Heap : Heap := [c6Hist]

/-- Escalation parameters referencing the example history, with no
explicit metrics or average confidence supplied. -/
def c6Params : EscParams :=
  { sessionId := "s1", type := "voice", reason := "low confidence", historyAddr := some 0,
    metrics := none, avgConfidence := none, summary := none, customerPhone := none,
    customerName := none }

/-- Fresh voice session state for the zero-confidence witness. -/
def c10State1 : ServerState :=
  (createSession emptyServerState "s1" "voice" cexClient "t1").2

/-- The session record stored for s1 in `c10State1`. -/
def c10Session : Session :=
  { id := "s1", type := "voice", startTime := "t1", audioChunks := [], historyAddr := 0 }

/-- A user turn carrying the legitimate confidence score 0. -/
def c10MsgZero : Msg :=
  { sender := "user", text := "zero", timestamp := none, confidence := some 0, tool := none }

/-- Escalation parameters reading the session array of `c10State1`. -/
def c10Params : EscParams :=
  { sessionId := "s1", type := "voice", reason := "check", historyAddr := some 0,
    metrics := none, avgConfidence := none, summary := none, customerPhone := none,
    customerName := none }

/-! Helper lemmas about the JS map and heap models. -/

theorem mapHas_eq_isSome {α : Type} (m : List (String × α)) (k : String) :
    mapHas m k = (mapGet m k).isSome := by
  induction m with
  | nil => rfl
  | cons p t ih =>
    by_cases h : p.1 = k
    · simp [mapHas, mapGet, List.find?, h]
    · simpa [mapHas, mapGet, List.find?, h] using ih

theorem mapGet_eq_none_of_has_false {α : Type} {m : List (String × α)} {k : String}
    (h : mapHas m k = false) : mapGet m k = none := by
  rw [mapHas_eq_isSome] at h
  exact Option.not_isSome_iff_eq_none.mp (by simp [h])

theorem find?_eq_none_of_has_false {α : Type} {m : List (String × α)} {k : String}
    (h : mapHas m k = false) : m.find? (fun p => p.1 = k) = none := by
  have := mapGet_eq_none_of_has_false h
  simpa [mapGet] using this

theorem mapGet_set_self {α : Type} (m : List (String × α)) (k : String) (v : α) :
    mapGet (mapSet m k v) k = some v := by
  unfold mapSet
  by_cases h : mapHas m k
  · simp only [h, if_true]
    induction m with
    | nil => simp [mapHas] at h
    | cons p t ih =>
      by_cases hp : p.1 = k
      · simp [mapGet, List.find?, hp]
      · have ht : mapHas t k = true := by
          simpa [mapHas, hp] using h
        have := ih ht
        simpa [mapGet, List.find?, hp] using this
  · simp only [h, if_false, Bool.false_eq_true]
    rw [mapGet, List.find?_append]
    rw [find?_eq_none_of_has_false (by simpa using h)]
    simp [List.find?]

theorem mapGet_map_replace_ne {α : Type} (m : List (String × α)) (k k2 : String) (v : α)
    (h : k2 ≠ k) :
    mapGet (m.map (fun p => if p.1 = k then (k, v) else p)) k2 = mapGet m k2 := by
  induction m with
  | nil => rfl
  | cons p t ih =>
    by_cases hp : p.1 = k
    · have h1 : ¬ ((k, v).1 = k2) := by simp [Ne.symm h]
      have h2 : ¬ (p.1 = k2) := by rw [hp]; exact Ne.symm h
      simpa [mapGet, List.find?, hp, h1, h2] using ih
    · rw [List.map_cons, if_neg hp]
      by_cases hq : p.1 = k2
      · simp [mapGet, List.find?, hq]
      · simpa [mapGet, List.find?, hq] using ih

theorem mapGet_set_ne {α : Type} (m : List (String × α)) (k k2 : String) (v : α)
    (h : k2 ≠ k) : mapGet (mapSet m k v) k2 = mapGet m k2 := by
  unfold mapSet
  by_cases hh : mapHas m k
  · simp only [hh, if_true]
    exact mapGet_map_replace_ne m k k2 v h
  · simp only [hh, if_false, Bool.false_eq_true]
    rw [mapGet, List.find?_append]
    have : List.find? (fun p => p.1 = k2) [(k, v)] = none := by
      simp [List.find?, Ne.symm h]
    rw [this]
    simp [mapGet]

theorem length_mapSet_of_has_false {α : Type} {m : List (String × α)} {k : String} (v : α)
    (h : mapHas m k = false) : (mapSet m k v).length = m.length + 1 := by
  simp [mapSet, h]

theorem mapDelete_mapDelete {α : Type} (m : List (String × α)) (k : String) :
    mapDelete (mapDelete m k) k = mapDelete m k := by
  simp [mapDelete, List.filter_filter]

theorem mapDelete_of_has_false {α : Type} {m : List (String × α)} {k : String}
    (h : mapHas m k = false) : mapDelete m k = m := by
  induction m with
  | nil => rfl
  | cons p t ih =>
    have hp : ¬ (p.1 = k) := by
      intro hc
      simp [mapHas, hc] at h
    have ht : mapHas t k = false := by
      simpa [mapHas, hp] using h
    simp [mapDelete, hp] at ih ⊢
    exact ih ht

theorem mapHas_mapDelete {α : Type} (m : List (String × α)) (k : String) :
    mapHas (mapDelete m k) k = false := by
  induction m with
  | nil => rfl
  | cons p t ih =>
    by_cases hp : p.1 = k
    · simpa [mapDelete, hp] using ih
    · simp only [mapDelete, mapHas] at ih ⊢
      simp [hp, ih]

theorem heapGet_heapSet_self {h : Heap} {a : Nat} (arr : List Msg) (ha : a < h.length) :
    heapGet (heapSet h a arr) a = arr := by
  simp [heapGet, heapSet, List.getD, List.getElem?_set_self ha]

theorem heapGet_heapSet_ne (h : Heap) (a b : Nat) (arr : List Msg) (hab : a ≠ b) :
    heapGet (heapSet h a arr) b = heapGet h b := by
  simp [heapGet, heapSet, List.getD, List.getElem?_set_ne hab]

theorem length_heapSet (h : Heap) (a : Nat) (arr : List Msg) :
    (heapSet h a arr).length = h.length := by
  simp [heapSet]

theorem heapGet_alloc_last (h : Heap) (arr : List Msg) :
    heapGet (h ++ [arr]) h.length = arr := by
  induction h with
  | nil => rfl
  | cons x t ih => simp [heapGet, List.getD] at ih ⊢

theorem heapGet_append_lt (h : Heap) (arr : List Msg) (a : Nat) (ha : a < h.length) :
    heapGet (h ++ [arr]) a = heapGet h a := by
  simp [heapGet, List.getD, List.getElem?_append_left ha]

/-! Small facts about the handler building blocks, shared by the claim
theorems. -/

theorem addChatMessage_sessions (st : ServerState) (sid : String) (m : Msg) (now : String) :
    (addChatMessage st sid m now).sessions = st.sessions := by
  cases h : mapGet st.sessions sid <;> simp [addChatMessage, h]

theorem addChatMessage_clients (st : ServerState) (sid : String) (m : Msg) (now : String) :
    (addChatMessage st sid m now).clients = st.clients := by
  cases h : mapGet st.sessions sid <;> simp [addChatMessage, h]

theorem addChatMessage_escalations (st : ServerState) (sid : String) (m : Msg) (now : String) :
    (addChatMessage st sid m now).escalations = st.escalations := by
  cases h : mapGet st.sessions sid <;> simp [addChatMessage, h]

theorem addChatMessage_heap_some (st : ServerState) (sid : String) (m : Msg) (now : String)
    (s : Session) (hs : mapGet st.sessions sid = some s) :
    (addChatMessage st sid m now).heap =
      heapSet st.heap s.historyAddr
        (heapGet st.heap s.historyAddr ++ [normalizeChatMessage now m]) := by
  simp [addChatMessage, hs]

theorem foldl_addChatMessage_escalations (arr : List Msg) (sid now : String) :
    ∀ st : ServerState,
      (arr.foldl (fun s m => addChatMessage s sid m now) st).escalations = st.escalations := by
  induction arr with
  | nil => intro st; rfl
  | cons m rest ih =>
    intro st
    rw [List.foldl_cons, ih, addChatMessage_escalations]

theorem createEscalation_fst_status (heap : Heap) (escalatedCalls : EscMap)
    (escalationId createdAt : String) (p : EscParams) :
    (createEscalation heap escalatedCalls escalationId createdAt p).1.status = "pending" := rfl

theorem createEscalation_fst_sessionId (heap : Heap) (escalatedCalls : EscMap)
    (escalationId createdAt : String) (p : EscParams) :
    (createEscalation heap escalatedCalls escalationId createdAt p).1.sessionId =
      p.sessionId := rfl

theorem createEscalation_fst_id (heap : Heap) (escalatedCalls : EscMap)
    (escalationId createdAt : String) (p : EscParams) :
    (createEscalation heap escalatedCalls escalationId createdAt p).1.id = escalationId := rfl

theorem createEscalation_escMap (heap : Heap) (escalatedCalls : EscMap)
    (escalationId createdAt : String) (p : EscParams) :
    (createEscalation heap escalatedCalls escalationId createdAt p).2.2 =
      mapSet escalatedCalls escalationId
        (createEscalation heap escalatedCalls escalationId createdAt p).1 := rfl

theorem createEscalation_historyAddr (heap : Heap) (escalatedCalls : EscMap)
    (escalationId createdAt : String) (p : EscParams) (a : Nat)
    (h : p.historyAddr = some a) :
    (createEscalation heap escalatedCalls escalationId createdAt p).1.historyAddr = a := by
  simp [createEscalation, h]

theorem hasSession_of_getSession {st : ServerState} {sid : String} {s : Session}
    (h : getSession st sid = some s) : hasSession st sid = true := by
  rw [hasSession, mapHas_eq_isSome]
  rw [getSession] at h
  simp [h]

/-- C9: in the client call state machine, processing a started-talking
control signal moves the bot state to listening from every state,
including speaking; the machine never remains in speaking after the
signal is processed. -/
theorem started_talking_forces_listening (botState : String) :
    botStateAfterLog botState "started_talking" = "listening" ∧
    botStateAfterLog botState "started_talking" ≠ "speaking" := by
  have h : botStateAfterLog botState "started_talking" = "listening" := rfl
  exact ⟨h, by rw [h]; decide⟩

/-- C8: session deletion is idempotent: a second delete of the same id,
or a delete of an id never created, changes nothing and raises nothing;
and `SESSION_END` for an unknown id is a silent no-op that deletes
nothing and broadcasts nothing. -/
theorem delete_idempotent_sessionEnd_noop (st : ServerState) (id : String) :
    deleteSession (deleteSession st id) id = deleteSession st id ∧
    (mapHas st.sessions id = false → mapHas st.clients id = false →
      deleteSession st id = st) ∧
    (hasSession st id = false → handleSessionEnd st id = (st, [])) := by
  refine ⟨?_, ?_, ?_⟩
  · simp [deleteSession, mapDelete_mapDelete]
  · intro h1 h2
    simp [deleteSession, mapDelete_of_has_false h1, mapDelete_of_has_false h2]
  · intro h
    simp [handleSessionEnd, h]

/-- Witness for C8 at the empty state and the never-created id s1. -/
theorem delete_idempotent_sessionEnd_noop_witness :
    deleteSession (deleteSession emptyServerState "s1") "s1" =
      deleteSession emptyServerState "s1" ∧
    deleteSession emptyServerState "s1" = emptyServerState ∧
    handleSessionEnd emptyServerState "s1" = (emptyServerState, []) := by
  have h := delete_idempotent_sessionEnd_noop emptyServerState "s1"
  exact ⟨h.1, h.2.1 (by decide) (by decide), h.2.2 (by decide)⟩

theorem appendTurns_history (pairs : List (Msg × String)) (sessionId : String) :
    ∀ st : ServerState, ∀ s : Session,
      mapGet st.sessions sessionId = some s → s.historyAddr < st.heap.length →
      getSessionHistory (appendTurns st sessionId pairs) sessionId =
        heapGet st.heap s.historyAddr ++
          pairs.map (fun p => normalizeChatMessage p.2 p.1) := by
  induction pairs with
  | nil =>
    intro st s hs _
    simp [appendTurns, getSessionHistory, hs]
  | cons p rest ih =>
    intro st s hs ha
    have hrun : appendTurns st sessionId (p :: rest) =
        appendTurns (addChatMessage st sessionId p.1 p.2) sessionId rest := rfl
    have hsess : mapGet (addChatMessage st sessionId p.1 p.2).sessions sessionId = some s := by
      rw [addChatMessage_sessions]; exact hs
    have hheap := addChatMessage_heap_some st sessionId p.1 p.2 s hs
    have hlen : s.historyAddr < (addChatMessage st sessionId p.1 p.2).heap.length := by
      rw [hheap, length_heapSet]; exact ha
    rw [hrun, ih _ s hsess hlen, hheap, heapGet_heapSet_self _ ha]
    simp

/-- C7: the turn-append round trip: after a create of a session id,
appending a batch of turns yields exactly those turns, normalised, in
append order, as the session history; and appending to an id with no
live session is a silent no-op on the whole server state. -/
theorem appendTurn_roundtrip_and_silent_noop (st : ServerState) (id sessionType : String)
    (ws : Client) (t0 : String) (pairs : List (Msg × String)) (id2 : String) (m : Msg)
    (now : String) :
    getSessionHistory (appendTurns (createSession st id sessionType ws t0).2 id pairs) id =
      pairs.map (fun p => normalizeChatMessage p.2 p.1) ∧
    (getSessionHistory (appendTurns (createSession st id sessionType ws t0).2 id pairs)
      id).length = pairs.length ∧
    (hasSession st id2 = false → addChatMessage st id2 m now = st) := by
  have hs : mapGet (createSession st id sessionType ws t0).2.sessions id =
      some (createSession st id sessionType ws t0).1 := by
    simp [createSession, mapGet_set_self]
  have ha : (createSession st id sessionType ws t0).1.historyAddr <
      (createSession st id sessionType ws t0).2.heap.length := by
    simp [createSession, heapAlloc]
  have h := appendTurns_history pairs id _ _ hs ha
  have hempty : heapGet (createSession st id sessionType ws t0).2.heap
      (createSession st id sessionType ws t0).1.historyAddr = [] := by
    simpa [createSession, heapAlloc] using heapGet_alloc_last st.heap []
  rw [hempty] at h
  simp only [List.nil_append] at h
  refine ⟨h, by rw [h]; simp, ?_⟩
  intro hno
  have : mapGet st.sessions id2 = none :=
    mapGet_eq_none_of_has_false (by simpa [hasSession] using hno)
  simp [addChatMessage, this]

/-- Witness for C7: three turns round-trip through session s1 of the
empty state, and an append to the absent id s2 is a no-op. -/
theorem appendTurn_roundtrip_and_silent_noop_witness :
    getSessionHistory
        (appendTurns (createSession emptyServerState "s1" "voice" cexClient "t0").2 "s1"
          c7Pairs) "s1" =
      c7Pairs.map (fun p => normalizeChatMessage p.2 p.1) ∧
    (getSessionHistory
        (appendTurns (createSession emptyServerState "s1" "voice" cexClient "t0").2 "s1"
          c7Pairs) "s1").length = c7Pairs.length ∧
    addChatMessage emptyServerState "s2" cexMsgHello "t9" = emptyServerState := by
  have h := appendTurn_roundtrip_and_silent_noop emptyServerState "s1" "voice" cexClient "t0"
    c7Pairs "s2" cexMsgHello "t9"
  exact ⟨h.1, h.2.1, h.2.2 (by decide)⟩

/-- C4 (amended): `getAndClearAudioChunks` returns the buffered chunks in
arrival order, not sorted by sequence number, and empties the session
buffer; the ordering by explicit chunk index is performed by the drain
consumer `forwardAudioToPython`, whose combined audio concatenates the
chunk data sorted (stably) by index. -/
theorem drain_arrival_order_consumer_sorts (st : ServerState) (sessionId : String)
    (s : Session) (hs : mapGet st.sessions sessionId = some s) :
    (getAndClearAudioChunks st sessionId).1 = s.audioChunks ∧
    mapGet (getAndClearAudioChunks st sessionId).2.sessions sessionId =
      some { s with audioChunks := [] } ∧
    List.Sorted chunkLe (jsSortByIndex s.audioChunks) ∧
    (jsSortByIndex s.audioChunks).Perm s.audioChunks ∧
    forwardAudioCombined s.audioChunks =
      String.join ((jsSortByIndex s.audioChunks).map Chunk.data) := by
  refine ⟨?_, ?_, ?_, ?_, rfl⟩
  · simp [getAndClearAudioChunks, hs]
  · simp [getAndClearAudioChunks, hs, mapGet_set_self]
  · exact List.sorted_insertionSort chunkLe s.audioChunks
  · exact List.perm_insertionSort chunkLe s.audioChunks

/-- Witness for C4 (amended) at the buffered state with indices 0, 2, 1
in arrival order. -/
theorem drain_arrival_order_consumer_sorts_witness :
    (getAndClearAudioChunks c4State "s1").1 = c4Session.audioChunks ∧
    mapGet (getAndClearAudioChunks c4State "s1").2.sessions "s1" =
      some { c4Session with audioChunks := [] } ∧
    List.Sorted chunkLe (jsSortByIndex c4Session.audioChunks) ∧
    (jsSortByIndex c4Session.audioChunks).Perm c4Session.audioChunks ∧
    forwardAudioCombined c4Session.audioChunks =
      String.join ((jsSortByIndex c4Session.audioChunks).map Chunk.data) :=
  drain_arrival_order_consumer_sorts c4State "s1" c4Session (by decide)

/-- Counterexample for C4 as stated: with chunks buffered under indices
0, 2, 1 in that arrival order, the drain returns them unsorted (0, 2, 1),
not in index order; the index-sorted order 0, 1, 2 only appears in the
consumer. -/
theorem drain_not_sorted_cex :
    (getAndClearAudioChunks c4State "s1").1.map Chunk.index = [0, 2, 1] ∧
    (getAndClearAudioChunks c4State "s1").1 ≠
      jsSortByIndex (getAndClearAudioChunks c4State "s1").1 ∧
    (jsSortByIndex (getAndClearAudioChunks c4State "s1").1).map Chunk.index = [0, 1, 2] ∧
    forwardAudioCombined (getAndClearAudioChunks c4State "s1").1 = "abc" := by
  refine ⟨by decide, by decide, by decide, ?_⟩
  decide

/-- C2 (amended): `createSession` never fails: a create for an id that is
already active replaces the stored session with a fresh record (new start
time, empty chunk buffer, freshly allocated empty history) and replaces
the client mapping in place, while entries for every other id are
untouched. -/
theorem createSession_replaces_existing (st : ServerState) (id sessionType : String)
    (ws : Client) (now : String) :
    (createSession st id sessionType ws now).1 =
      { id := id, type := sessionType, startTime := now, audioChunks := [],
        historyAddr := st.heap.length } ∧
    mapGet (createSession st id sessionType ws now).2.sessions id =
      some (createSession st id sessionType ws now).1 ∧
    mapGet (createSession st id sessionType ws now).2.clients id = some ws ∧
    (∀ k, k ≠ id → mapGet (createSession st id sessionType ws now).2.sessions k =
      mapGet st.sessions k) := by
  refine ⟨rfl, ?_, ?_, ?_⟩
  · simp [createSession, mapGet_set_self]
  · simp [createSession, mapGet_set_self]
  · intro k hk
    simp [createSession, mapGet_set_ne _ _ _ _ hk]

/-- Witness for C2 (amended): re-creating the already-active s1 replaces
its session record, and the unrelated id s2 is untouched. -/
theorem createSession_replaces_existing_witness :
    (createSession c2State2 "s1" "chat" cexClient "t3").1 =
      { id := "s1", type := "chat", startTime := "t3", audioChunks := [],
        historyAddr := c2State2.heap.length } ∧
    mapGet (createSession c2State2 "s1" "chat" cexClient "t3").2.sessions "s1" =
      some (createSession c2State2 "s1" "chat" cexClient "t3").1 ∧
    mapGet (createSession c2State2 "s1" "chat" cexClient "t3").2.clients "s1" =
      some cexClient ∧
    mapGet (createSession c2State2 "s1" "chat" cexClient "t3").2.sessions "s2" =
      mapGet c2State2.sessions "s2" := by
  have h := createSession_replaces_existing c2State2 "s1" "chat" cexClient "t3"
  exact ⟨h.1, h.2.1, h.2.2.1, h.2.2.2 "s2" (by decide)⟩

/-- Counterexample for C2 as stated: a second create of the active id s1
does not fail and does not leave the existing entry unchanged: the stored
start time changes from t1 to t3 and the accumulated history is replaced
by a fresh empty one. -/
theorem createSession_overwrite_cex :
    getSessionHistory c2State2 "s1" =
      [{ sender := "user", text := "hello", timestamp := some "t2", confidence := none,
         tool := none }] ∧
    (mapGet c2State2.sessions "s1").map Session.startTime = some "t1" ∧
    getSessionHistory c2State3 "s1" = [] ∧
    (mapGet c2State3.sessions "s1").map Session.startTime = some "t3" ∧
    mapHas c2State3.sessions "s1" = true := by
  decide

/-- C5 (amended): resolved is not terminal: `updateEscalationStatus`
assigns any requested status unconditionally, so an `ESCALATION_TAKE`
moves even a resolved escalation back to in-progress, retaining the stale
resolution timestamp and resolver; setting status to resolved is the only
transition that stamps `resolvedAt` and `resolvedBy`, and every other
status value leaves both fields as they were. -/
theorem updateStatus_unconditional_take_unresolves (escalatedCalls : EscMap)
    (id status : String) (resolvedBy : Option String) (now : String) (e : Escalation)
    (he : mapGet escalatedCalls id = some e) :
    ((updateEscalationStatus escalatedCalls id status resolvedBy now).1.map
        Escalation.status = some status ∧
     (updateEscalationStatus escalatedCalls id status resolvedBy now).1.map
        Escalation.resolvedAt =
       some (if status = "resolved" then some now else e.resolvedAt) ∧
     (updateEscalationStatus escalatedCalls id status resolvedBy now).1.map
        Escalation.resolvedBy =
       some (if status = "resolved" then resolvedBy else e.resolvedBy)) ∧
    (∀ st : ServerState, ∀ ws : Client,
      st.escalations = escalatedCalls → e.status = "resolved" →
      ∃ e2 : Escalation,
        (handleEscalationTake st id ws now).1.escalations = mapSet escalatedCalls id e2 ∧
        e2.status = "in-progress" ∧
        e2.resolvedAt = e.resolvedAt ∧
        e2.resolvedBy = e.resolvedBy ∧
        (handleEscalationTake st id ws now).2 =
          [OutAction.broadcastAll (WireEvent.escalationUpdated e2)]) := by
  constructor
  · refine ⟨?_, ?_, ?_⟩ <;> simp [updateEscalationStatus, he]
  · intro st ws hst _
    refine ⟨{ e with
      status := "in-progress",
      resolvedAt := (if ("in-progress" : String) = "resolved" then some now else e.resolvedAt),
      resolvedBy := (if ("in-progress" : String) = "resolved" then none else e.resolvedBy) }, ?_, by simp, by simp, by simp, ?_⟩
    · simp [handleEscalationTake, updateEscalationStatus, hst, he]
    · simp [handleEscalationTake, updateEscalationStatus, hst, he]

/-- Witness for C5 (amended) at the resolved escalation esc1: the take
command moves it back to in-progress with the stale resolution data. -/
theorem updateStatus_unconditional_take_unresolves_witness :
    ((updateEscalationStatus c1State3.escalations "esc1" "in-progress" none "t4").1.map
        Escalation.status = some "in-progress" ∧
     (updateEscalationStatus c1State3.escalations "esc1" "in-progress" none "t4").1.map
        Escalation.resolvedAt = some c5EscResolved.resolvedAt ∧
     (updateEscalationStatus c1State3.escalations "esc1" "in-progress" none "t4").1.map
        Escalation.resolvedBy = some c5EscResolved.resolvedBy) ∧
    (∃ e2 : Escalation,
      (handleEscalationTake c1State3 "esc1" cexClient "t4").1.escalations =
        mapSet c1State3.escalations "esc1" e2 ∧
      e2.status = "in-progress" ∧
      e2.resolvedAt = c5EscResolved.resolvedAt ∧
      e2.resolvedBy = c5EscResolved.resolvedBy ∧
      (handleEscalationTake c1State3 "esc1" cexClient "t4").2 =
        [OutAction.broadcastAll (WireEvent.escalationUpdated e2)]) := by
  have h := updateStatus_unconditional_take_unresolves c1State3.escalations "esc1"
    "in-progress" none "t4" c5EscResolved (by decide)
  exact ⟨h.1, h.2 c1State3 cexClient rfl (by decide)⟩

/-- Counterexample for C5 as stated: esc1 is resolved in `c1State3`, yet
the subsequent `ESCALATION_TAKE` changes its status away from resolved to
in-progress (while the stale resolution stamp remains). -/
theorem resolved_not_terminal_cex :
    (mapGet c1State3.escalations "esc1").map Escalation.status = some "resolved" ∧
    (mapGet c5State.escalations "esc1").map Escalation.status = some "in-progress" ∧
    (mapGet c5State.escalations "esc1").map Escalation.resolvedAt = some (some "t3") ∧
    (mapGet c5State.escalations "esc1").map Escalation.resolvedBy = some (some "alice") := by
  decide

/-- C3 (amended): the escalation history is not a frozen snapshot when it
comes from the session registry: `handleEscalation` without a
caller-supplied `fullHistory` stores the session chat-history array by
reference, so a later `addChatMessage` for that session also extends the
escalation record's history; the history stays unchanged exactly when the
escalation references a different array. -/
theorem escalation_history_alias (st : ServerState) (sid : String) (s : Session)
    (e : Escalation) (m : Msg) (now : String) (hs : mapGet st.sessions sid = some s)
    (ha : s.historyAddr < st.heap.length) :
    heapGet (addChatMessage st sid m now).heap e.historyAddr =
      (if e.historyAddr = s.historyAddr
       then heapGet st.heap e.historyAddr ++ [normalizeChatMessage now m]
       else heapGet st.heap e.historyAddr) ∧
    (∀ message : EscalateMsg, ∀ ws : Client, ∀ freshEscId : String, ∀ esc : Escalation,
      message.fullHistory = none →
      getEscalationBySessionId st.escalations sid = none →
      sid ≠ "" →
      mapGet (handleEscalation st message ws (some sid) freshEscId now).1.escalations
          freshEscId = some esc →
      esc.historyAddr = s.historyAddr) := by
  constructor
  · rw [addChatMessage_heap_some st sid m now s hs]
    by_cases hab : e.historyAddr = s.historyAddr
    · rw [if_pos hab, hab, heapGet_heapSet_self _ ha]
    · rw [if_neg hab, heapGet_heapSet_ne _ _ _ _ (fun hc => hab hc.symm)]
  · intro message ws freshEscId esc hfull hges hsid hescget
    have hgetS : getSession st sid = some s := by simpa [getSession] using hs
    have hhas : hasSession st sid = true := hasSession_of_getSession hgetS
    rw [handleEscalation] at hescget
    rw [if_neg (by simp [hsid, hhas])] at hescget
    rw [hges, hgetS, hfull] at hescget
    simp only [createEscalation_escMap, mapGet_set_self] at hescget
    have hesc := Option.some.inj hescget
    rw [← hesc]
    exact createEscalation_historyAddr _ _ _ _ _ _ rfl

/-- Witness for C3 (amended) at the aliased state `c3State3`: appending a
bot turn to session s1 extends the history of escalation esc1 (address
equal), and the escalation created by the handler indeed stores the
session array address. -/
theorem escalation_history_alias_witness :
    heapGet (addChatMessage c3State3 "s1" cexMsgHello "t5").heap c1EscPending.historyAddr =
      (if c1EscPending.historyAddr = c1Session.historyAddr
       then heapGet c3State3.heap c1EscPending.historyAddr ++
         [normalizeChatMessage "t5" cexMsgHello]
       else heapGet c3State3.heap c1EscPending.historyAddr) ∧
    (∀ esc : Escalation,
      mapGet (handleEscalation c2State2 c1EscMsg cexClient (some "s1") "esc1" "t3").1.escalations
          "esc1" = some esc →
      esc.historyAddr = c1Session.historyAddr) := by
  have h := escalation_history_alias c3State3 "s1" c1Session c1EscPending cexMsgHello "t5"
    (by decide) (by decide)
  have h2 := escalation_history_alias c2State2 "s1" c1Session c1EscPending cexMsgHello "t3"
    (by decide) (by decide)
  exact ⟨h.1, fun esc hesc => h2.2 c1EscMsg cexClient "esc1" esc rfl (by decide) (by decide) hesc⟩

/-- Counterexample for C3 as stated: escalation esc1 of `c3State3` was
created from the session registry history (one turn); appending one more
turn to session s1 changes the escalation's stored history to two turns,
so the history field is a live view, not a frozen copy. -/
theorem escalation_history_not_frozen_cex :
    (escalationHistory c3State3 "esc1").length = 1 ∧
    (escalationHistory c3State4 "esc1").length = 2 ∧
    escalationHistory c3State4 "esc1" =
      escalationHistory c3State3 "esc1" ++
        [{ sender := "bot", text := "hi", timestamp := some "t4", confidence := none,
           tool := none }] := by
  decide

/-- C1 (amended): for an active session, an `ESCALATE` command is
rejected with `ESCALATION_EXISTS` (carrying the existing record's id and
creating nothing) exactly when `getEscalationBySessionId` finds any
escalation for that session, regardless of its status, resolved included;
only when no record at all exists is a new pending escalation created and
`ESCALATION_NEW` broadcast. -/
theorem escalate_reject_iff_record_exists (st : ServerState) (message : EscalateMsg)
    (ws : Client) (sid freshEscId now : String) (session : Session)
    (hsid : sid ≠ "") (hsession : getSession st sid = some session)
    (hfresh : mapHas st.escalations freshEscId = false) :
    (∀ e : Escalation, getEscalationBySessionId st.escalations sid = some e →
      handleEscalation st message ws (some sid) freshEscId now =
        (st, [OutAction.sendTo ws (WireEvent.escalationExists e.id)])) ∧
    (getEscalationBySessionId st.escalations sid = none →
      ∃ esc : Escalation,
        mapGet (handleEscalation st message ws (some sid) freshEscId now).1.escalations
          freshEscId = some esc ∧
        esc.status = "pending" ∧
        esc.sessionId = sid ∧
        (handleEscalation st message ws (some sid) freshEscId now).1.escalations.length =
          st.escalations.length + 1 ∧
        (handleEscalation st message ws (some sid) freshEscId now).2 =
          [OutAction.sendTo ws
             (WireEvent.escalationTriggered esc.id "Connecting you to an agent..."),
           OutAction.broadcastAll (WireEvent.escalationNew esc)]) := by
  have hhas : hasSession st sid = true := hasSession_of_getSession hsession
  constructor
  · intro e he
    rw [handleEscalation, if_neg (by simp [hsid, hhas]), he]
  · intro hnone
    rw [handleEscalation, if_neg (by simp [hsid, hhas]), hnone, hsession]
    cases hfl : message.fullHistory with
    | none =>
      refine ⟨_, ?_, createEscalation_fst_status _ _ _ _ _,
        createEscalation_fst_sessionId _ _ _ _ _, ?_, rfl⟩
      · simp only [createEscalation_escMap, mapGet_set_self]
      · simp only [createEscalation_escMap]
        exact length_mapSet_of_has_false _ hfresh
    | some arr =>
      by_cases harr : arr.length > 0
      · simp only [harr, if_pos]
        have hesc := foldl_addChatMessage_escalations arr sid now
          { st with heap := (heapAlloc st.heap arr).2 }
        refine ⟨_, ?_, createEscalation_fst_status _ _ _ _ _,
          createEscalation_fst_sessionId _ _ _ _ _, ?_, rfl⟩
        · simp only [createEscalation_escMap, mapGet_set_self]
        · simp only [createEscalation_escMap, hesc]
          exact length_mapSet_of_has_false _ hfresh
      · simp only [harr, if_neg, if_false]
        refine ⟨_, ?_, createEscalation_fst_status _ _ _ _ _,
          createEscalation_fst_sessionId _ _ _ _ _, ?_, rfl⟩
        · simp only [createEscalation_escMap, mapGet_set_self]
        · simp only [createEscalation_escMap]
          exact length_mapSet_of_has_false _ hfresh

/-- Witness for C1 (amended): at `c1State2` (pending esc1) a second
escalate is rejected with the existing id; at `c1State1` (no record) a
pending escalation is created and broadcast. -/
theorem escalate_reject_iff_record_exists_witness :
    handleEscalation c1State2 c1EscMsg cexClient (some "s1") "esc9" "t9" =
      (c1State2, [OutAction.sendTo cexClient (WireEvent.escalationExists "esc1")]) ∧
    (∃ esc : Escalation,
      mapGet (handleEscalation c1State1 c1EscMsg cexClient (some "s1") "esc1"
          "t2").1.escalations "esc1" = some esc ∧
      esc.status = "pending" ∧
      esc.sessionId = "s1" ∧
      (handleEscalation c1State1 c1EscMsg cexClient (some "s1") "esc1"
          "t2").1.escalations.length = c1State1.escalations.length + 1 ∧
      (handleEscalation c1State1 c1EscMsg cexClient (some "s1") "esc1" "t2").2 =
        [OutAction.sendTo cexClient
           (WireEvent.escalationTriggered esc.id "Connecting you to an agent..."),
         OutAction.broadcastAll (WireEvent.escalationNew esc)]) := by
  constructor
  · have h := escalate_reject_iff_record_exists c1State2 c1EscMsg cexClient "s1" "esc9" "t9"
      c1Session (by decide) (by decide) (by decide)
    exact h.1 c1EscPending (by decide)
  · have h := escalate_reject_iff_record_exists c1State1 c1EscMsg cexClient "s1" "esc1" "t2"
      c1Session (by decide) (by decide) (by decide)
    exact h.2 (by decide)

/-- Counterexample for C1 as stated: in `c1State3` the only escalation
for session s1 is resolved, so no non-resolved record exists (the pending
list is empty), yet a new `ESCALATE` is still rejected with
`ESCALATION_EXISTS` and creates nothing. -/
theorem escalate_rejected_despite_resolved_cex :
    (getPendingEscalations c1State3.escalations).length = 0 ∧
    (mapGet c1State3.escalations "esc1").map Escalation.status = some "resolved" ∧
    handleEscalation c1State3 c1EscMsg cexClient (some "s1") "esc2" "t5" =
      (c1State3, [OutAction.sendTo cexClient (WireEvent.escalationExists "esc1")]) := by
  refine ⟨by decide, by decide, ?_⟩
  decide

theorem userConfidences_eq (history : List Msg) :
    ((history.filter (fun m => m.sender == "user")).map (fun m => m.confidence)).filterMap
      (fun c => c) = specUserConfidences history := by
  induction history with
  | nil => rfl
  | cons m t ih =>
    by_cases hm : m.sender = "user"
    · cases hc : m.confidence <;>
        simp [specUserConfidences, List.filterMap_cons, hm, hc] at ih ⊢ <;>
        exact ih
    · simp [specUserConfidences, List.filterMap_cons, hm] at ih ⊢
      exact ih

/-- C6: for an escalation created without an explicit average confidence,
the derived statistics are computed from the supplied history as
specified: the average confidence is the arithmetic mean of the
confidence values of user turns with non-null confidence (null when there
are none), and the low-confidence count is the number of those values
below 0.70. -/
theorem createEscalation_stats_correct (heap : Heap) (escalatedCalls : EscMap)
    (escalationId createdAt : String) (p : EscParams) (a : Nat) (history : List Msg)
    (hAddr : p.historyAddr = some a) (hHist : heapGet heap a = history)
    (hAvg : p.avgConfidence = none) :
    (createEscalation heap escalatedCalls escalationId createdAt p).1.avgConfidence =
      (if specUserConfidences history = [] then none
       else some ((specUserConfidences history).sum /
         ((specUserConfidences history).length : ℚ))) ∧
    (createEscalation heap escalatedCalls escalationId createdAt p).1.stats.avgConfidence =
      (if specUserConfidences history = [] then none
       else some ((specUserConfidences history).sum /
         ((specUserConfidences history).length : ℚ))) ∧
    (createEscalation heap escalatedCalls escalationId createdAt p).1.stats.lowConfidenceCount =
      ((specUserConfidences history).filter (fun c => decide (c < 7 / 10))).length := by
  have hkey := userConfidences_eq history
  have havg :
      (if (specUserConfidences history).length > 0 then
        some ((specUserConfidences history).foldl (fun a b => a + b) 0 /
          ((specUserConfidences history).length : ℚ))
       else none) =
      (if specUserConfidences history = [] then none
       else some ((specUserConfidences history).sum /
         ((specUserConfidences history).length : ℚ))) := by
    cases hcs : specUserConfidences history with
    | nil => simp
    | cons x xs => simp [List.sum_eq_foldl]
  refine ⟨?_, ?_, ?_⟩
  · simp only [createEscalation, hAddr, hHist, hAvg, hkey]
    exact havg
  · simp only [createEscalation, hAddr, hHist, hAvg, hkey]
    exact havg
  · simp only [createEscalation, hAddr, hHist, hAvg, hkey]

/-- Witness for C6 at the four-user-turn example history with confidences
0.9, 0.5, 0.3 and null. -/
theorem createEscalation_stats_correct_witness :
    (createEscalation c6Heap [] "esc1" "t1" c6Params).1.avgConfidence =
      (if specUserConfidences c6Hist = [] then none
       else some ((specUserConfidences c6Hist).sum /
         ((specUserConfidences c6Hist).length : ℚ))) ∧
    (createEscalation c6Heap [] "esc1" "t1" c6Params).1.stats.avgConfidence =
      (if specUserConfidences c6Hist = [] then none
       else some ((specUserConfidences c6Hist).sum /
         ((specUserConfidences c6Hist).length : ℚ))) ∧
    (createEscalation c6Heap [] "esc1" "t1" c6Params).1.stats.lowConfidenceCount =
      ((specUserConfidences c6Hist).filter (fun c => decide (c < 7 / 10))).length :=
  createEscalation_stats_correct c6Heap [] "esc1" "t1" c6Params 0 c6Hist rfl rfl rfl

/-- C10: `addChatMessage` stores a falsy confidence as null, so a user
turn appended with the legitimate score 0 has its confidence erased;
consequently an escalation created from that history excludes the turn
from the average-confidence computation and from the low-confidence
count, while the turn still counts towards the total and user-turn
counts. -/
theorem confidence_zero_stored_null_excluded (st : ServerState) (sid : String) (s : Session)
    (m : Msg) (now : String) (escalatedCalls : EscMap) (escalationId createdAt : String)
    (p : EscParams)
    (hs : mapGet st.sessions sid = some s) (ha : s.historyAddr < st.heap.length)
    (hsender : m.sender = "user") (hconf : m.confidence = some 0)
    (hAddr : p.historyAddr = some s.historyAddr) (hAvg : p.avgConfidence = none) :
    (normalizeChatMessage now m).confidence = none ∧
    (createEscalation (addChatMessage st sid m now).heap escalatedCalls escalationId
        createdAt p).1.avgConfidence =
      (createEscalation st.heap escalatedCalls escalationId createdAt p).1.avgConfidence ∧
    (createEscalation (addChatMessage st sid m now).heap escalatedCalls escalationId
        createdAt p).1.stats.avgConfidence =
      (createEscalation st.heap escalatedCalls escalationId createdAt p).1.stats.avgConfidence ∧
    (createEscalation (addChatMessage st sid m now).heap escalatedCalls escalationId
        createdAt p).1.stats.lowConfidenceCount =
      (createEscalation st.heap escalatedCalls escalationId createdAt
        p).1.stats.lowConfidenceCount ∧
    (createEscalation (addChatMessage st sid m now).heap escalatedCalls escalationId
        createdAt p).1.stats.totalTurns =
      (createEscalation st.heap escalatedCalls escalationId createdAt p).1.stats.totalTurns
        + 1 ∧
    (createEscalation (addChatMessage st sid m now).heap escalatedCalls escalationId
        createdAt p).1.stats.userMessages =
      (createEscalation st.heap escalatedCalls escalationId createdAt p).1.stats.userMessages
        + 1 := by
  have hnorm : (normalizeChatMessage now m).confidence = none := by
    simp [normalizeChatMessage, jsNumOrNull, hconf]
  have hnsender : (normalizeChatMessage now m).sender = "user" := by
    simp [normalizeChatMessage, hsender]
  have hheap : heapGet (addChatMessage st sid m now).heap s.historyAddr =
      heapGet st.heap s.historyAddr ++ [normalizeChatMessage now m] := by
    rw [addChatMessage_heap_some st sid m now s hs, heapGet_heapSet_self _ ha]
  have hfilter : (heapGet st.heap s.historyAddr ++ [normalizeChatMessage now m]).filter
      (fun x => x.sender == "user") =
      (heapGet st.heap s.historyAddr).filter (fun x => x.sender == "user") ++
        [normalizeChatMessage now m] := by
    simp [List.filter_append, hnsender]
  have hcs : ((((heapGet st.heap s.historyAddr ++ [normalizeChatMessage now m]).filter
        (fun x => x.sender == "user")).map (fun x => x.confidence)).filterMap
        (fun c => c)) =
      ((((heapGet st.heap s.historyAddr).filter (fun x => x.sender == "user")).map
        (fun x => x.confidence)).filterMap (fun c => c)) := by
    rw [hfilter]
    simp [List.map_append, List.filterMap_append, hnorm]
  refine ⟨hnorm, ?_, ?_, ?_, ?_, ?_⟩
  · simp only [createEscalation, hAddr, hAvg, hheap, hcs]
  · simp only [createEscalation, hAddr, hAvg, hheap, hcs]
  · simp only [createEscalation, hAddr, hAvg, hheap, hcs]
  · simp only [createEscalation, hAddr, hAvg, hheap]
    simp
  · simp only [createEscalation, hAddr, hAvg, hheap, hfilter]
    simp

/-- Witness for C10: a user turn with confidence 0 appended to the fresh
voice session s1 is stored with null confidence and leaves every derived
confidence statistic unchanged while the turn counters grow by one. -/
theorem confidence_zero_stored_null_excluded_witness :
    (normalizeChatMessage "t2" c10MsgZero).confidence = none ∧
    (createEscalation (addChatMessage c10State1 "s1" c10MsgZero "t2").heap [] "esc1"
        "t3" c10Params).1.avgConfidence =
      (createEscalation c10State1.heap [] "esc1" "t3" c10Params).1.avgConfidence ∧
    (createEscalation (addChatMessage c10State1 "s1" c10MsgZero "t2").heap [] "esc1"
        "t3" c10Params).1.stats.avgConfidence =
      (createEscalation c10State1.heap [] "esc1" "t3" c10Params).1.stats.avgConfidence ∧
    (createEscalation (addChatMessage c10State1 "s1" c10MsgZero "t2").heap [] "esc1"
        "t3" c10Params).1.stats.lowConfidenceCount =
      (createEscalation c10State1.heap [] "esc1" "t3" c10Params).1.stats.lowConfidenceCount ∧
    (createEscalation (addChatMessage c10State1 "s1" c10MsgZero "t2").heap [] "esc1"
        "t3" c10Params).1.stats.totalTurns =
      (createEscalation c10State1.heap [] "esc1" "t3" c10Params).1.stats.totalTurns + 1 ∧
    (createEscalation (addChatMessage c10State1 "s1" c10MsgZero "t2").heap [] "esc1"
        "t3" c10Params).1.stats.userMessages =
      (createEscalation c10State1.heap [] "esc1" "t3" c10Params).1.stats.userMessages + 1 :=
  confidence_zero_stored_null_excluded c10State1 "s1" c10Session c10MsgZero "t2" [] "esc1"
    "t3" c10Params (by decide) (by decide) rfl rfl rfl rfl
